import Mathlib

/-!
A shallow embedding of the CHIP-8 emulator core in `src/main.rs`: machine
state, memory, timers, instruction decoding and instruction execution,
followed by theorems checking the specification's claims against it.
Rust panics reachable from the interpreter (array index out of bounds,
debug-mode integer underflow, and `todo` placeholders) are modelled by the
`Fault` error channel: at those points the Rust program aborts instead of
returning a structured error value to its caller.
-/

namespace Chip8

/-- Screen width in pixels (`WIDTH`). -/
def WIDTH : Nat := 64

/-- Screen height in pixels (`HEIGHT`). -/
def HEIGHT : Nat := 32

/-- The flag register index (`const VF: Register = Register(0xf)`). -/
def VF : Nat := 15

/-- Machine state (`struct State`): program counter `ip`, halt flag,
index register `address`, stack pointer `sp`, sixteen byte registers `v`. -/
structure State where
  ip : Nat
  finished : Bool
  address : Nat
  sp : Nat
  v : Nat → Nat

/-- Register read (`State::get`). -/
def State.get (s : State) (r : Nat) : Nat := s.v r

/-- Register write (`State::set`). -/
def State.set (s : State) (r c : Nat) : State :=
  { s with v := Function.update s.v r c }

/-- The initial machine state (`State::default`). -/
def State.start : State :=
  { ip := 0x200, finished := false, address := 0, sp := 0, v := fun _ => 0 }

/-- Memory (`struct Memory`): a 16-entry return stack and 4096 bytes of RAM,
each modelled as a total map from index to stored value. -/
structure Memory where
  stack : Nat → Nat
  mem : Nat → Nat

/-- All-zero memory (`Memory::default`). -/
def Memory.zero : Memory := { stack := fun _ => 0, mem := fun _ => 0 }

/-- Timer state (`struct Timer`); `last_update` is the monotonic clock
reading, in microseconds, taken at the previous tick. -/
structure Timer where
  delay_value : Nat
  sound_value : Nat
  last_update : Nat

/-- Timer tick (`Timer::update`), with the current monotonic clock reading
`now` (in microseconds) passed explicitly in place of `Instant::now()`. -/
def Timer.update (t : Timer) (now : Nat) : Timer × Bool :=
  let diff := now - t.last_update
  if 16600 ≤ diff then
    ({ delay_value := if 0 < t.delay_value then t.delay_value - 1 else t.delay_value,
       sound_value := if 0 < t.sound_value then t.sound_value - 1 else t.sound_value,
       last_update := now }, true)
  else (t, false)

/-- The decoded instruction set (`enum Instruction`); constructor names and
operand order follow the source, operands are nibble/byte/address values. -/
inductive Instruction where
  | SysCall (a : Nat)
  | ClearScreen
  | Return
  | Jump (a : Nat)
  | Call (a : Nat)
  | SkipIfEqual (r c : Nat)
  | SkipIfNotEqual (r c : Nat)
  | SkipIfRegistersEqual (x y : Nat)
  | SetImmediate (r c : Nat)
  | AddImmediate (r c : Nat)
  | SetRegister (x y : Nat)
  | OrRegister (x y : Nat)
  | AndRegister (x y : Nat)
  | XorRegister (x y : Nat)
  | AdcRegister (x y : Nat)
  | SwbRegister (x y : Nat)
  | ShrRegister (x y : Nat)
  | ReverseSwbRegister (x y : Nat)
  | ShlRegister (x y : Nat)
  | SkipIfRegistersNotEqual (x y : Nat)
  | StoreAddress (a : Nat)
  | JumpOffset (a : Nat)
  | StoreRandom (r c : Nat)
  | DrawSprite (x y : Nat) (n : Nat)
  | SkipIfPressed (r : Nat)
  | SkipIfNotPressed (r : Nat)
  | SetFromDelay (r : Nat)
  | WaitKeyPress (r : Nat)
  | SetToDelay (r : Nat)
  | SetToSound (r : Nat)
  | AddAddress (r : Nat)
  | SetAddressToSprite (r : Nat)
  | StoreBCD (r : Nat)
  | StoreRegisters (r : Nat)
  | LoadRegisters (r : Nat)

/-- Decode failure (the `bail` arm of `Instruction::decode`): carries the
faulting address and the four opcode nibbles the error message prints. -/
structure DecodeError where
  addr : Nat
  a : Nat
  b : Nat
  c : Nat
  d : Nat
deriving DecidableEq

/-- First opcode nibble `a` of the word at the program counter. -/
def nibA (s : State) (mem : Memory) : Nat := (mem.mem s.ip &&& 0xf0) >>> 4

/-- Second opcode nibble `b`. -/
def nibB (s : State) (mem : Memory) : Nat := mem.mem s.ip &&& 0x0f

/-- Third opcode nibble `c`. -/
def nibC (s : State) (mem : Memory) : Nat := (mem.mem (s.ip + 1) &&& 0xf0) >>> 4

/-- Fourth opcode nibble `d`. -/
def nibD (s : State) (mem : Memory) : Nat := mem.mem (s.ip + 1) &&& 0x0f

/-- Twelve-bit address operand (the `addr` closure in `decode`). -/
def addr12 (x y z : Nat) : Nat := (x <<< 8) ||| (y <<< 4) ||| z

/-- Eight-bit immediate operand (the `const2` closure in `decode`). -/
def const8 (x y : Nat) : Nat := (x <<< 4) ||| y

/-- The decode match over the four opcode nibbles, parameterised by the
program counter value used in the failure report. -/
def decodeFields (ipv a b c d : Nat) : Except DecodeError Instruction :=
  if a = 0 ∧ b = 0 ∧ c = 0xe ∧ d = 0 then .ok .ClearScreen
  else if a = 0 ∧ b = 0 ∧ c = 0xe ∧ d = 0xe then .ok .Return
  else if a = 0 then .ok (.SysCall (addr12 b c d))
  else if a = 1 then .ok (.Jump (addr12 b c d))
  else if a = 2 then .ok (.Call (addr12 b c d))
  else if a = 3 then .ok (.SkipIfEqual b (const8 c d))
  else if a = 4 then .ok (.SkipIfNotEqual b (const8 c d))
  else if a = 5 ∧ d = 0 then .ok (.SkipIfRegistersEqual b c)
  else if a = 6 then .ok (.SetImmediate b (const8 c d))
  else if a = 7 then .ok (.AddImmediate b (const8 c d))
  else if a = 8 ∧ d = 0 then .ok (.SetRegister b c)
  else if a = 8 ∧ d = 1 then .ok (.OrRegister b c)
  else if a = 8 ∧ d = 2 then .ok (.AndRegister b c)
  else if a = 8 ∧ d = 3 then .ok (.XorRegister b c)
  else if a = 8 ∧ d = 4 then .ok (.AdcRegister b c)
  else if a = 8 ∧ d = 5 then .ok (.SwbRegister b c)
  else if a = 8 ∧ d = 6 then .ok (.ShrRegister b c)
  else if a = 8 ∧ d = 7 then .ok (.ReverseSwbRegister b c)
  else if a = 8 ∧ d = 0xe then .ok (.ShlRegister b c)
  else if a = 9 ∧ d = 0 then .ok (.SkipIfRegistersNotEqual b c)
  else if a = 0xa then .ok (.StoreAddress (addr12 b c d))
  else if a = 0xb then .ok (.JumpOffset (addr12 b c d))
  else if a = 0xc then .ok (.StoreRandom b (const8 c d))
  else if a = 0xd then .ok (.DrawSprite b c d)
  else if a = 0xe ∧ c = 0x9 ∧ d = 0xe then .ok (.SkipIfPressed b)
  else if a = 0xe ∧ c = 0xa ∧ d = 0x1 then .ok (.SkipIfNotPressed b)
  else if a = 0xf ∧ c = 0x0 ∧ d = 0x7 then .ok (.SetFromDelay b)
  else if a = 0xf ∧ c = 0x0 ∧ d = 0xa then .ok (.WaitKeyPress b)
  else if a = 0xf ∧ c = 0x1 ∧ d = 0x5 then .ok (.SetToDelay b)
  else if a = 0xf ∧ c = 0x1 ∧ d = 0x8 then .ok (.SetToSound b)
  else if a = 0xf ∧ c = 0x1 ∧ d = 0xe then .ok (.AddAddress b)
  else if a = 0xf ∧ c = 0x2 ∧ d = 0x9 then .ok (.SetAddressToSprite b)
  else if a = 0xf ∧ c = 0x3 ∧ d = 0x3 then .ok (.StoreBCD b)
  else if a = 0xf ∧ c = 0x5 ∧ d = 0x5 then .ok (.StoreRegisters b)
  else if a = 0xf ∧ c = 0x6 ∧ d = 0x5 then .ok (.LoadRegisters b)
  else .error ⟨ipv, a, b, c, d⟩

/-- Instruction decoding (`Instruction::decode`): reads the two bytes at the
program counter, splits them into four nibbles, and selects the matching
variant; if no pattern matches it fails with the address and the nibbles. -/
def decode (s : State) (mem : Memory) : Except DecodeError Instruction :=
  decodeFields s.ip (nibA s mem) (nibB s mem) (nibC s mem) (nibD s mem)

/-- The nibble patterns that have a decode arm: the match conditions of
`Instruction::decode`, with the fallthrough structure flattened (`a = 0`
always matches because `SysCall` accepts every remaining `0...` word). -/
def definedPattern (a b c d : Nat) : Prop :=
  a = 0 ∨ a = 1 ∨ a = 2 ∨ a = 3 ∨ a = 4 ∨ (a = 5 ∧ d = 0) ∨ a = 6 ∨ a = 7 ∨
    (a = 8 ∧ (d = 0 ∨ d = 1 ∨ d = 2 ∨ d = 3 ∨ d = 4 ∨ d = 5 ∨ d = 6 ∨ d = 7 ∨ d = 0xe)) ∨
    (a = 9 ∧ d = 0) ∨ a = 0xa ∨ a = 0xb ∨ a = 0xc ∨ a = 0xd ∨
    (a = 0xe ∧ ((c = 0x9 ∧ d = 0xe) ∨ (c = 0xa ∧ d = 0x1))) ∨
    (a = 0xf ∧ ((c = 0x0 ∧ d = 0x7) ∨ (c = 0x0 ∧ d = 0xa) ∨ (c = 0x1 ∧ d = 0x5) ∨
      (c = 0x1 ∧ d = 0x8) ∨ (c = 0x1 ∧ d = 0xe) ∨ (c = 0x2 ∧ d = 0x9) ∨
      (c = 0x3 ∧ d = 0x3) ∨ (c = 0x5 ∧ d = 0x5) ∨ (c = 0x6 ∧ d = 0x5)))

instance (a b c d : Nat) : Decidable (definedPattern a b c d) := by
  unfold definedPattern
  infer_instance

/-- One sprite bit as 0 or 1 (`(pixels & (1 << (7 - bit))) != 0`). -/
def spriteBitAt (mem : Memory) (addr row bit : Nat) : Nat :=
  if mem.mem (addr + row) &&& (1 <<< (7 - bit)) ≠ 0 then 1 else 0

/-- One framebuffer bit: 1 exactly when the cell holds the set-pixel word
`0xffffffff`. -/
def screenBit (cur : Nat) : Nat := if cur = 0xffffffff then 1 else 0

/-- The cell word the draw loop writes back: the XOR of screen bit and
sprite bit re-encoded as a pixel word (`0xff000000` when the new bit is 0). -/
def writePix (cur sb : Nat) : Nat :=
  if screenBit cur ^^^ sb = 0 then 0xff000000 else 0xffffffff

/-- Collision test for one cell: the draw loop records a collision exactly
when the new bit is 0 while the screen bit was 1. -/
def flipBit (cur sb : Nat) : Bool :=
  (screenBit cur ^^^ sb == 0) && (screenBit cur == 1)

/-- Body of the inner draw loop over `bit` (the `DrawSprite` arm). -/
def drawBit (mem : Memory) (x y addr row : Nat) (acc : (Nat → Nat) × Bool) (bit : Nat) :
    (Nat → Nat) × Bool :=
  let offset := x + (y + row) * WIDTH
  let cur := acc.1 (offset + bit)
  let sb := spriteBitAt mem addr row bit
  (Function.update acc.1 (offset + bit) (writePix cur sb), acc.2 || flipBit cur sb)

/-- The two nested draw loops of the `DrawSprite` arm: the new framebuffer
and the collision flag accumulated over all rows and bits. -/
def drawResult (mem : Memory) (screen : Nat → Nat) (x y addr n : Nat) :
    (Nat → Nat) × Bool :=
  (List.range n).foldl
    (fun acc row => (List.range 8).foldl (drawBit mem x y addr row) acc) (screen, false)

/-- The Rust panics reachable from `Instruction::execute`: `todo` arms,
out-of-bounds stack indexing, and stack-pointer underflow. The Rust program
aborts at these points; nothing is reported through the `Result` channel. -/
inductive Fault where
  | notImplemented
  | indexOutOfBounds
  | arithmeticOverflow
deriving DecidableEq

/-- Instruction execution (`Instruction::execute`). The four `&mut`
parameters become an explicit result tuple, `rnd` injects the
`rand::random::<u8>()` byte, and Rust panics become `Fault` errors. -/
def execute (i : Instruction) (s : State) (mem : Memory) (screen : Nat → Nat)
    (timer : Timer) (rnd : Nat) : Except Fault (State × Memory × (Nat → Nat) × Timer) :=
  let ip := s.ip + 2
  match i with
  | .ClearScreen => .ok ({ s with ip := ip }, mem, fun _ => 0xff000000, timer)
  | .SysCall _ => .error .notImplemented
  | .Return =>
    if s.sp < 16 then
      if 0 < s.sp then
        .ok ({ s with ip := mem.stack s.sp, sp := s.sp - 1 }, mem, screen, timer)
      else .error .arithmeticOverflow
    else .error .indexOutOfBounds
  | .Jump a => .ok ({ s with ip := a }, mem, screen, timer)
  | .Call a =>
    if s.sp + 1 < 16 then
      .ok ({ s with sp := s.sp + 1, ip := a },
        { mem with stack := Function.update mem.stack (s.sp + 1) ip }, screen, timer)
    else .error .indexOutOfBounds
  | .SkipIfEqual r c =>
    .ok ({ s with ip := if s.get r = c then ip + 2 else ip }, mem, screen, timer)
  | .SkipIfNotEqual r c =>
    .ok ({ s with ip := if s.get r ≠ c then ip + 2 else ip }, mem, screen, timer)
  | .SkipIfRegistersEqual x y =>
    .ok ({ s with ip := if s.get x = s.get y then ip + 2 else ip }, mem, screen, timer)
  | .SetImmediate r c => .ok ({ s.set r c with ip := ip }, mem, screen, timer)
  | .AddImmediate r c =>
    .ok ({ s.set r ((s.get r + c) % 256) with ip := ip }, mem, screen, timer)
  | .SetRegister x y => .ok ({ s.set x (s.get y) with ip := ip }, mem, screen, timer)
  | .AndRegister x y =>
    .ok ({ s.set x (s.get x &&& s.get y) with ip := ip }, mem, screen, timer)
  | .AdcRegister x y =>
    let s' := (s.set x ((s.get x + s.get y) % 256)).set VF
      (if s.get x + s.get y ≤ 255 then 1 else 0)
    .ok ({ s' with ip := ip }, mem, screen, timer)
  | .SwbRegister x y =>
    let s' := (s.set x ((s.get x + 256 - s.get y) % 256)).set VF
      (if s.get y ≤ s.get x then 1 else 0)
    .ok ({ s' with ip := ip }, mem, screen, timer)
  | .StoreAddress a => .ok ({ s with address := a, ip := ip }, mem, screen, timer)
  | .StoreRandom r c =>
    .ok ({ s.set r ((rnd % 256) &&& c) with ip := ip }, mem, screen, timer)
  | .DrawSprite x y n =>
    let res := drawResult mem screen (s.get x) (s.get y) s.address n
    let s' := s.set VF (if res.2 then 1 else 0)
    .ok ({ s' with ip := ip }, mem, res.1, timer)
  | .SkipIfPressed _ => .ok ({ s with ip := ip }, mem, screen, timer)
  | .SkipIfNotPressed _ => .ok ({ s with ip := ip + 2 }, mem, screen, timer)
  | .SetFromDelay r => .ok ({ s.set r timer.delay_value with ip := ip }, mem, screen, timer)
  | .SetToDelay r =>
    .ok ({ s with ip := ip }, mem, screen, { timer with delay_value := s.get r })
  | .SetToSound r =>
    .ok ({ s with ip := ip }, mem, screen, { timer with sound_value := s.get r })
  | .AddAddress r =>
    .ok ({ s with address := s.address + s.get r, ip := ip }, mem, screen, timer)
  | .SetAddressToSprite x =>
    .ok ({ s with address := if s.get x ≤ 0xf then 5 * s.get x else s.address, ip := ip },
      mem, screen, timer)
  | .StoreBCD r =>
    let val := s.get r
    let h := val / 100
    let t := (val - 100 * h) / 10
    let o := val - 100 * h - 10 * t
    let bytes := Function.update (Function.update (Function.update mem.mem
      s.address h) (s.address + 1) t) (s.address + 2) o
    .ok ({ s with ip := ip }, { mem with mem := bytes }, screen, timer)
  | .StoreRegisters x =>
    let bytes := (List.range x).foldl
      (fun m i => Function.update m (s.address + i) (s.v i)) mem.mem
    .ok ({ s with ip := ip }, { mem with mem := bytes }, screen, timer)
  | .LoadRegisters x =>
    let s' := (List.range x).foldl (fun st i => st.set i (mem.mem (s.address + i))) s
    .ok ({ s' with ip := ip }, mem, screen, timer)
  | .OrRegister _ _ => .error .notImplemented
  | .XorRegister _ _ => .error .notImplemented
  | .ShrRegister _ _ => .error .notImplemented
  | .ReverseSwbRegister _ _ => .error .notImplemented
  | .ShlRegister _ _ => .error .notImplemented
  | .SkipIfRegistersNotEqual _ _ => .error .notImplemented
  | .JumpOffset _ => .error .notImplemented
  | .WaitKeyPress _ => .error .notImplemented


/-- Pixel index the draw loop writes for the row-bit pair `p` when drawing
at column `x` and row `y` (`offset + bit` with `offset = x + (y + row) * WIDTH`). -/
def drawIdx (x y : Nat) (p : Nat × Nat) : Nat := x + (y + p.1) * WIDTH + p.2

/-- One draw-loop step, indexed by a row-bit pair. -/
def drawStep (mem : Memory) (x y addr : Nat) (acc : (Nat → Nat) × Bool) (p : Nat × Nat) :
    (Nat → Nat) × Bool := drawBit mem x y addr p.1 acc p.2

/-- Row-major list of the row-bit pairs the two draw loops visit. -/
def drawPairs (n : Nat) : List (Nat × Nat) :=
  (List.range n).flatMap fun r => (List.range 8).map fun b => (r, b)

/-- A screen buffer of all-unset pixels (`fill(0xff000000)`). -/
def clearBuf : Nat → Nat := fun _ => 0xff000000

/-- A screen buffer of all-set pixels. -/
def fullBuf : Nat → Nat := fun _ => 0xffffffff

/-- A timer at zero with a zero clock base. -/
def zeroTimer : Timer := ⟨0, 0, 0⟩

/-- State with `V0 = 0xFF` and `V1 = 0x01`, the spec's first carry example. -/
def adcState : State :=
  { State.start with v := fun i => if i = 0 then 0xff else if i = 1 then 1 else 0 }

/-- State with `V0 = 0x01` and `V1 = 0x01`, the spec's second carry example. -/
def adcState2 : State :=
  { State.start with v := fun i => if i = 0 then 1 else if i = 1 then 1 else 0 }

/-- State with `V0 = 5`, `V1 = 3`, the spec's subtract example. -/
def swbState : State :=
  { State.start with v := fun i => if i = 0 then 5 else if i = 1 then 3 else 0 }

/-- State with `V0 = 42` and index register `0x300`. -/
def regsState : State :=
  { State.start with address := 0x300, v := fun i => if i = 0 then 42 else 0 }

/-- Memory holding the byte 7 at address `0x300`. -/
def memAt768 : Memory :=
  { Memory.zero with mem := fun i => if i = 0x300 then 7 else 0 }

/-- State with `V0 = 234` and index register `0x300`, the spec's BCD example. -/
def bcdState : State :=
  { State.start with address := 0x300, v := fun i => if i = 0 then 234 else 0 }

/-- Memory whose bytes 0 to 4 hold the digit-0 glyph installed by `main`. -/
def glyphMem : Memory :=
  { Memory.zero with mem := fun i =>
      if i = 0 then 0xf0 else if i = 1 then 0x90 else if i = 2 then 0x90
      else if i = 3 then 0x90 else if i = 4 then 0xf0 else 0 }

/-- Memory holding the opcode word `0x5001` (no decode arm) at `0x200`. -/
def badOpMem : Memory :=
  { Memory.zero with mem := fun i =>
      if i = 0x200 then 0x50 else if i = 0x201 then 0x01 else 0 }

/-- Memory holding the opcode word `0x8344` (add-with-carry) at `0x200`. -/
def goodOpMem : Memory :=
  { Memory.zero with mem := fun i =>
      if i = 0x200 then 0x83 else if i = 0x201 then 0x44 else 0 }

/-- Iterated nested calls: `n` executions of `Call 0x300` from the initial
state, threading the whole machine through `execute`. -/
def callChain : Nat → Except Fault (State × Memory × (Nat → Nat) × Timer)
  | 0 => .ok (State.start, Memory.zero, clearBuf, zeroTimer)
  | n + 1 => (callChain n).bind fun r => execute (.Call 0x300) r.1 r.2.1 r.2.2.1 r.2.2.2 0

/-- A draw step splits into a pointwise screen update at `drawIdx` and an
accumulated collision flag. -/
theorem drawStep_eq (mem : Memory) (x y addr : Nat) (acc : (Nat → Nat) × Bool)
    (p : Nat × Nat) :
    drawStep mem x y addr acc p =
      (Function.update acc.1 (drawIdx x y p)
        (writePix (acc.1 (drawIdx x y p)) (spriteBitAt mem addr p.1 p.2)),
       acc.2 || flipBit (acc.1 (drawIdx x y p)) (spriteBitAt mem addr p.1 p.2)) := rfl

/-- The nested row/bit loops equal one fold over the row-major pair list. -/
theorem nested_foldl_eq_pairs (mem : Memory) (x y addr : Nat) (n : Nat) :
    ∀ acc, (List.range n).foldl
        (fun acc row => (List.range 8).foldl (drawBit mem x y addr row) acc) acc =
      (drawPairs n).foldl (drawStep mem x y addr) acc := by
  induction n with
  | zero => intro acc; rfl
  | succ n ih =>
    intro acc
    rw [drawPairs, List.range_succ n, List.flatMap_append, List.foldl_append,
      List.foldl_append, List.flatMap_singleton, List.foldl_map]
    rw [show (List.range n).flatMap (fun r => (List.range 8).map fun b => (r, b)) =
      drawPairs n from rfl]
    rw [ih acc]
    rfl

/-- `drawResult` as a fold over the row-major pair list. -/
theorem drawResult_eq_pairs (mem : Memory) (screen : Nat → Nat) (x y addr n : Nat) :
    drawResult mem screen x y addr n =
      (drawPairs n).foldl (drawStep mem x y addr) (screen, false) :=
  nested_foldl_eq_pairs mem x y addr n (screen, false)

/-- Cells whose index no visited pair touches keep their value. -/
theorem foldl_drawStep_apply_ne (mem : Memory) (x y addr : Nat) (L : List (Nat × Nat)) :
    ∀ acc j, (∀ p ∈ L, drawIdx x y p ≠ j) →
      ((L.foldl (drawStep mem x y addr) acc).1) j = acc.1 j := by
  induction L with
  | nil => intro acc j _; rfl
  | cons q L ih =>
    intro acc j hj
    rw [List.foldl_cons]
    rw [ih _ j (fun p hp => hj p (List.mem_cons_of_mem q hp))]
    rw [drawStep_eq]
    exact Function.update_noteq (Ne.symm (hj q (List.mem_cons_self q L))) _ _

/-- When all visited pairs target distinct cells, the cell of a visited pair
ends as the XOR-write of its original value with that pair's sprite bit. -/
theorem foldl_drawStep_apply_mem (mem : Memory) (x y addr : Nat) (L : List (Nat × Nat)) :
    L.Pairwise (fun p q => drawIdx x y p ≠ drawIdx x y q) →
    ∀ p ∈ L, ∀ acc,
      ((L.foldl (drawStep mem x y addr) acc).1) (drawIdx x y p) =
        writePix (acc.1 (drawIdx x y p)) (spriteBitAt mem addr p.1 p.2) := by
  induction L with
  | nil => intro _ p hp; cases hp
  | cons q L ih =>
    intro hL p hp acc
    obtain ⟨hq, hL2⟩ := List.pairwise_cons.mp hL
    rw [List.foldl_cons]
    rcases List.mem_cons.mp hp with rfl | hp2
    · rw [foldl_drawStep_apply_ne mem x y addr L _ _ (fun r hr => (hq r hr).symm)]
      rw [drawStep_eq]
      exact Function.update_same _ _ _
    · rw [ih hL2 p hp2 (drawStep mem x y addr acc q)]
      rw [drawStep_eq]
      dsimp only
      rw [Function.update_noteq (Ne.symm (hq p hp2)) _ _]

/-- When all visited pairs target distinct cells, the accumulated collision
flag is true exactly when some pair flips its cell from set to unset. -/
theorem foldl_drawStep_flag (mem : Memory) (x y addr : Nat) (L : List (Nat × Nat)) :
    L.Pairwise (fun p q => drawIdx x y p ≠ drawIdx x y q) →
    ∀ acc, (((L.foldl (drawStep mem x y addr) acc).2) = true ↔
      acc.2 = true ∨ ∃ p ∈ L,
        flipBit (acc.1 (drawIdx x y p)) (spriteBitAt mem addr p.1 p.2) = true) := by
  induction L with
  | nil => intro _ acc; simp
  | cons q L ih =>
    intro hL acc
    obtain ⟨hq, hL2⟩ := List.pairwise_cons.mp hL
    rw [List.foldl_cons, ih hL2 (drawStep mem x y addr acc q)]
    have hval : ∀ p ∈ L,
        (drawStep mem x y addr acc q).1 (drawIdx x y p) = acc.1 (drawIdx x y p) := by
      intro p hp
      rw [drawStep_eq]
      exact Function.update_noteq (Ne.symm (hq p hp)) _ _
    constructor
    · rintro (h2 | ⟨p, hp, hflip⟩)
      · rw [drawStep_eq] at h2
        rcases (Bool.or_eq_true _ _).mp h2 with h3 | h3
        · exact Or.inl h3
        · exact Or.inr ⟨q, List.mem_cons_self q L, h3⟩
      · refine Or.inr ⟨p, List.mem_cons_of_mem q hp, ?_⟩
        rw [← hval p hp]
        exact hflip
    · rintro (h2 | ⟨p, hp, hflip⟩)
      · left
        rw [drawStep_eq]
        exact (Bool.or_eq_true _ _).mpr (Or.inl h2)
      · rcases List.mem_cons.mp hp with rfl | hp2
        · left
          rw [drawStep_eq]
          exact (Bool.or_eq_true _ _).mpr (Or.inr hflip)
        · refine Or.inr ⟨p, hp2, ?_⟩
          rw [hval p hp2]
          exact hflip

/-- Membership in the row-major pair list. -/
theorem drawPairs_mem {n : Nat} {p : Nat × Nat} :
    p ∈ drawPairs n ↔ p.1 < n ∧ p.2 < 8 := by
  constructor
  · intro h
    rcases List.mem_flatMap.mp h with ⟨r, hr, hm⟩
    rcases List.mem_map.mp hm with ⟨b, hb, he⟩
    cases he
    exact ⟨List.mem_range.mp hr, List.mem_range.mp hb⟩
  · intro h
    exact List.mem_flatMap.mpr ⟨p.1, List.mem_range.mpr h.1,
      List.mem_map.mpr ⟨p.2, List.mem_range.mpr h.2, rfl⟩⟩

/-- Distinct row-bit pairs touch distinct cells: within a row the bit
offsets differ, and across rows the 64-cell strides dominate the bits. -/
theorem drawPairs_pairwise (x y : Nat) (n : Nat) :
    (drawPairs n).Pairwise (fun p q => drawIdx x y p ≠ drawIdx x y q) := by
  induction n with
  | zero => simp [drawPairs]
  | succ n ih =>
    rw [drawPairs, List.range_succ n, List.flatMap_append, List.flatMap_singleton]
    rw [show (List.range n).flatMap (fun r => (List.range 8).map fun b => (r, b)) =
      drawPairs n from rfl]
    rw [List.pairwise_append]
    refine ⟨ih, ?_, ?_⟩
    · rw [List.pairwise_map]
      apply List.Pairwise.imp ?_ (List.pairwise_lt_range 8)
      intro b b2 hbb
      dsimp only [drawIdx, WIDTH]
      omega
    · intro p hp q hq
      obtain ⟨h1, h2⟩ := drawPairs_mem.mp hp
      rcases List.mem_map.mp hq with ⟨b, hb, rfl⟩
      have hb2 := List.mem_range.mp hb
      dsimp only [drawIdx, WIDTH]
      omega

/-- The cell of a visited pair after one whole draw. -/
theorem drawResult_apply_mem (mem : Memory) (screen : Nat → Nat) (x y addr n r b : Nat)
    (hr : r < n) (hb : b < 8) :
    (drawResult mem screen x y addr n).1 (drawIdx x y (r, b)) =
      writePix (screen (drawIdx x y (r, b))) (spriteBitAt mem addr r b) := by
  rw [drawResult_eq_pairs]
  exact foldl_drawStep_apply_mem mem x y addr (drawPairs n) (drawPairs_pairwise x y n)
    (r, b) (drawPairs_mem.mpr ⟨hr, hb⟩) (screen, false)

/-- Cells not touched by any visited pair survive one whole draw. -/
theorem drawResult_apply_ne (mem : Memory) (screen : Nat → Nat) (x y addr n j : Nat)
    (hj : ∀ r b, r < n → b < 8 → drawIdx x y (r, b) ≠ j) :
    (drawResult mem screen x y addr n).1 j = screen j := by
  rw [drawResult_eq_pairs]
  apply foldl_drawStep_apply_ne
  intro p hp
  obtain ⟨h1, h2⟩ := drawPairs_mem.mp hp
  exact hj p.1 p.2 h1 h2

/-- The collision flag of one whole draw. -/
theorem drawResult_flag (mem : Memory) (screen : Nat → Nat) (x y addr n : Nat) :
    ((drawResult mem screen x y addr n).2 = true ↔
      ∃ r, r < n ∧ ∃ b, b < 8 ∧
        flipBit (screen (drawIdx x y (r, b))) (spriteBitAt mem addr r b) = true) := by
  rw [drawResult_eq_pairs, foldl_drawStep_flag mem x y addr (drawPairs n)
    (drawPairs_pairwise x y n) (screen, false)]
  constructor
  · rintro (h | ⟨p, hp, hf⟩)
    · simp at h
    · obtain ⟨h1, h2⟩ := drawPairs_mem.mp hp
      exact ⟨p.1, h1, p.2, h2, hf⟩
  · rintro ⟨r, h1, b, h2, hf⟩
    exact Or.inr ⟨(r, b), drawPairs_mem.mpr ⟨h1, h2⟩, hf⟩

/-- A sprite bit is 0 or 1. -/
theorem spriteBitAt_le_one (mem : Memory) (addr r b : Nat) :
    spriteBitAt mem addr r b = 0 ∨ spriteBitAt mem addr r b = 1 := by
  unfold spriteBitAt
  split <;> simp

/-- Writing the same sprite bit twice restores a cell's set/unset value. -/
theorem writePix_writePix (cur sb : Nat) (hsb : sb = 0 ∨ sb = 1) :
    (writePix (writePix cur sb) sb = 0xffffffff ↔ cur = 0xffffffff) := by
  rcases hsb with rfl | rfl <;> by_cases hc : cur = 0xffffffff <;>
    simp [writePix, screenBit, hc]

/-- The collision test holds exactly on a set cell hit by a set sprite bit. -/
theorem flipBit_iff (cur sb : Nat) (hsb : sb = 0 ∨ sb = 1) :
    (flipBit cur sb = true ↔ cur = 0xffffffff ∧ sb = 1) := by
  rcases hsb with rfl | rfl <;> by_cases hc : cur = 0xffffffff <;>
    simp [flipBit, screenBit, hc]

/-- After one XOR write, the collision test holds exactly on a cell that was
unset and is hit by a set sprite bit. -/
theorem flip_writePix (cur sb : Nat) (hsb : sb = 0 ∨ sb = 1) :
    (flipBit (writePix cur sb) sb = true ↔ ¬ cur = 0xffffffff ∧ sb = 1) := by
  rcases hsb with rfl | rfl <;> by_cases hc : cur = 0xffffffff <;>
    simp [flipBit, writePix, screenBit, hc]

/-- The collision flag of one draw, phrased by pixel transitions. -/
theorem drawResult_flag_iff (mem : Memory) (screen : Nat → Nat) (x y addr n : Nat) :
    ((drawResult mem screen x y addr n).2 = true ↔
      ∃ r, r < n ∧ ∃ b, b < 8 ∧ screen (drawIdx x y (r, b)) = 0xffffffff ∧
        spriteBitAt mem addr r b = 1) := by
  rw [drawResult_flag]
  constructor
  · rintro ⟨r, hr, b, hb, hf⟩
    exact ⟨r, hr, b, hb, (flipBit_iff _ _ (spriteBitAt_le_one mem addr r b)).mp hf⟩
  · rintro ⟨r, hr, b, hb, hc, hs⟩
    exact ⟨r, hr, b, hb, (flipBit_iff _ _ (spriteBitAt_le_one mem addr r b)).mpr ⟨hc, hs⟩⟩

/-- The collision flag of the second of two identical draws. -/
theorem drawResult_flag_second (mem : Memory) (screen : Nat → Nat) (x y addr n : Nat) :
    ((drawResult mem (drawResult mem screen x y addr n).1 x y addr n).2 = true ↔
      ∃ r, r < n ∧ ∃ b, b < 8 ∧ ¬ screen (drawIdx x y (r, b)) = 0xffffffff ∧
        spriteBitAt mem addr r b = 1) := by
  rw [drawResult_flag]
  constructor
  · rintro ⟨r, hr, b, hb, hf⟩
    rw [drawResult_apply_mem mem screen x y addr n r b hr hb] at hf
    exact ⟨r, hr, b, hb, (flip_writePix _ _ (spriteBitAt_le_one mem addr r b)).mp hf⟩
  · rintro ⟨r, hr, b, hb, hc, hs⟩
    refine ⟨r, hr, b, hb, ?_⟩
    rw [drawResult_apply_mem mem screen x y addr n r b hr hb]
    exact (flip_writePix _ _ (spriteBitAt_le_one mem addr r b)).mpr ⟨hc, hs⟩

/-- Executing a draw, written with `drawResult`. -/
theorem execute_drawSprite (s : State) (mem : Memory) (screen : Nat → Nat)
    (timer : Timer) (rnd : Nat) (rx ry n : Nat) :
    execute (.DrawSprite rx ry n) s mem screen timer rnd =
      .ok ({ s.set VF (if (drawResult mem screen (s.v rx) (s.v ry) s.address n).2
          then 1 else 0) with ip := s.ip + 2 }, mem,
        (drawResult mem screen (s.v rx) (s.v ry) s.address n).1, timer) := rfl

/-- C1. The add-with-carry arm stores the wrapped sum correctly, but its flag
is inverted: `0xFF + 0x01` gives result `0x00` with `V15 = 0` (the claim and
the spec require flag 1 on carry), and `0x01 + 0x01` gives `0x02` with
`V15 = 1` (the claim requires 0). The source computes the flag from
`checked_add(..).is_some()`, which is 1 exactly when no carry occurred. -/
theorem adc_carry_flag_is_inverted :
    ((execute (.AdcRegister 0 1) adcState Memory.zero clearBuf zeroTimer 0).toOption.map
      (fun r => (r.1.v 0, r.1.v 15))) = some (0, 0) ∧
    ((execute (.AdcRegister 0 1) adcState2 Memory.zero clearBuf zeroTimer 0).toOption.map
      (fun r => (r.1.v 0, r.1.v 15))) = some (2, 1) :=
  ⟨rfl, rfl⟩

/-- C2. Stack discipline is not detected or reported: from the initial state
only 15 nested calls succeed; the 16th call indexes `stack[16]`, out of
bounds for the 16-entry array, and panics instead of reporting a
stack-discipline error, and a return on the empty stack underflows the
`usize` stack pointer and panics as well. -/
theorem call_stack_violations_panic :
    (callChain 15).isOk = true ∧
    callChain 16 = .error .indexOutOfBounds ∧
    execute .Return State.start Memory.zero clearBuf zeroTimer 0 =
      .error .arithmeticOverflow :=
  ⟨rfl, rfl, rfl⟩

/-- C3. Forward subtract-with-borrow stores `(x − y) mod 256` in the
destination register and sets `V15` to 1 exactly when no borrow occurred
(`regX ≥ regY`), else 0. -/
theorem swb_result_and_no_borrow_flag (s : State) (mem : Memory) (screen : Nat → Nat)
    (timer : Timer) (rnd : Nat) (x y : Nat) (hx : x ≠ 15)
    (ha : s.v x < 256) (hb : s.v y < 256) :
    ((execute (.SwbRegister x y) s mem screen timer rnd).toOption.map
      (fun r => (r.1.v x, r.1.v 15))) =
      some ((((s.v x : Int) - s.v y) % 256).toNat, if s.v y ≤ s.v x then 1 else 0) := by
  simp only [execute, State.get, State.set, VF, Except.toOption, Option.map,
    Function.update_same, Function.update_noteq hx, Option.some.injEq, Prod.mk.injEq]
  exact ⟨by omega, trivial⟩

/-- Witness for C3: subtract-with-borrow of 5 and 3 yields 2 with flag 1. -/
theorem swb_result_and_no_borrow_flag_witness :
    ((execute (.SwbRegister 0 1) swbState Memory.zero clearBuf zeroTimer 0).toOption.map
      (fun r => (r.1.v 0, r.1.v 15))) = some (2, 1) := by
  have h := swb_result_and_no_borrow_flag swbState Memory.zero clearBuf zeroTimer 0 0 1
    (by decide) (by decide) (by decide)
  simpa using h

/-- C4. The register block store/load loops run `for i in 0..N`, excluding
`N`: with operand `N = 0` the store writes nothing (memory at the index
register keeps 0 although `V0 = 42`), and the load reads nothing (`V0`
keeps 42 although memory at the index register holds 7). The claim and the
spec require registers `0..=N` inclusive, i.e. `N + 1` transfers. -/
theorem store_load_registers_drop_register_n :
    ((execute (.StoreRegisters 0) regsState Memory.zero clearBuf zeroTimer 0).toOption.map
      (fun r => r.2.1.mem 0x300)) = some 0 ∧
    regsState.v 0 = 42 ∧
    ((execute (.LoadRegisters 0) regsState memAt768 clearBuf zeroTimer 0).toOption.map
      (fun r => r.1.v 0)) = some 42 ∧
    memAt768.mem 0x300 = 7 :=
  ⟨rfl, rfl, rfl, rfl⟩

/-- C5 counterexample: drawing the digit-0 glyph at (0, 0) twice in a row on
a screen whose pixels all start set leaves the collision flag at 0 after the
second draw, refuting the claim's unconditional "the second draw sets the
collision flag V15 to 1". -/
theorem double_draw_flag_not_always_one :
    ((execute (.DrawSprite 0 1 5) State.start glyphMem fullBuf zeroTimer 0).toOption.bind
      (fun r1 => (execute (.DrawSprite 0 1 5) r1.1 r1.2.1 r1.2.2.1 r1.2.2.2 0).toOption.map
        (fun r2 => r2.1.v 15))) = some 0 := by
  rfl

/-- C5 (amended). Drawing the same in-bounds sprite twice at the same
in-bounds coordinates (index register, sprite bytes and coordinate
registers unchanged in between) restores every pixel's set/unset value;
each draw sets `V15` to 1 exactly when some pixel transitions from set to
unset during that draw, else 0; hence the second draw reports a collision
exactly when some set sprite bit covers a pixel that was unset before the
first draw, not unconditionally. -/
theorem double_draw_restores_pixels (s : State) (mem : Memory) (screen : Nat → Nat)
    (timer : Timer) (rnd : Nat) (rx ry n : Nat) (hrx : rx ≠ 15) (hry : ry ≠ 15)
    (hin1 : s.v rx + 8 ≤ 64) (hin2 : s.v ry + n ≤ 32) :
    ∃ s₁ scr₁ s₂ scr₂,
      execute (.DrawSprite rx ry n) s mem screen timer rnd = .ok (s₁, mem, scr₁, timer) ∧
      execute (.DrawSprite rx ry n) s₁ mem scr₁ timer rnd = .ok (s₂, mem, scr₂, timer) ∧
      (∀ j, (scr₂ j = 0xffffffff ↔ screen j = 0xffffffff)) ∧
      (s₁.v 15 = 1 ∨ s₁.v 15 = 0) ∧
      (s₁.v 15 = 1 ↔ ∃ r, r < n ∧ ∃ b, b < 8 ∧
        screen (drawIdx (s.v rx) (s.v ry) (r, b)) = 0xffffffff ∧
        spriteBitAt mem s.address r b = 1) ∧
      (s₂.v 15 = 1 ↔ ∃ r, r < n ∧ ∃ b, b < 8 ∧
        ¬ screen (drawIdx (s.v rx) (s.v ry) (r, b)) = 0xffffffff ∧
        spriteBitAt mem s.address r b = 1) := by
  set d1 := drawResult mem screen (s.v rx) (s.v ry) s.address n with hd1
  set sA : State := { s.set VF (if d1.2 then 1 else 0) with ip := s.ip + 2 } with hsA
  have hvA : ∀ z, z ≠ 15 → sA.v z = s.v z := fun z hz => Function.update_noteq hz _ s.v
  have hvAf : sA.v 15 = if d1.2 then 1 else 0 := Function.update_same VF _ s.v
  have haA : sA.address = s.address := rfl
  set d2 := drawResult mem d1.1 (s.v rx) (s.v ry) s.address n with hd2
  set sB : State := { sA.set VF (if d2.2 then 1 else 0) with ip := sA.ip + 2 } with hsB
  have hvBf : sB.v 15 = if d2.2 then 1 else 0 := Function.update_same VF _ sA.v
  have e1 : execute (.DrawSprite rx ry n) s mem screen timer rnd =
      .ok (sA, mem, d1.1, timer) := execute_drawSprite s mem screen timer rnd rx ry n
  have e2 : execute (.DrawSprite rx ry n) sA mem d1.1 timer rnd =
      .ok (sB, mem, d2.1, timer) := by
    have h := execute_drawSprite sA mem d1.1 timer rnd rx ry n
    rw [hvA rx hrx, hvA ry hry, haA] at h
    exact h
  refine ⟨sA, d1.1, sB, d2.1, e1, e2, ?_, ?_, ?_, ?_⟩
  · intro j
    by_cases hj : ∃ r, r < n ∧ ∃ b, b < 8 ∧ drawIdx (s.v rx) (s.v ry) (r, b) = j
    · obtain ⟨r, hr, b, hb, hij⟩ := hj
      subst hij
      rw [hd2, hd1]
      rw [drawResult_apply_mem mem _ (s.v rx) (s.v ry) s.address n r b hr hb]
      rw [drawResult_apply_mem mem screen (s.v rx) (s.v ry) s.address n r b hr hb]
      exact writePix_writePix _ _ (spriteBitAt_le_one mem s.address r b)
    · push_neg at hj
      have hj2 : ∀ r b, r < n → b < 8 → drawIdx (s.v rx) (s.v ry) (r, b) ≠ j :=
        fun r b hr hb => hj r hr b hb
      rw [hd2, hd1]
      rw [drawResult_apply_ne mem _ (s.v rx) (s.v ry) s.address n j hj2]
      rw [drawResult_apply_ne mem screen (s.v rx) (s.v ry) s.address n j hj2]
  · rw [hvAf]
    rcases d1.2 <;> simp
  · rw [hvAf, hd1]
    rw [← drawResult_flag_iff mem screen (s.v rx) (s.v ry) s.address n]
    rcases hb2 : (drawResult mem screen (s.v rx) (s.v ry) s.address n).2 <;> simp [hb2]
  · rw [hvBf, hd2, hd1]
    rw [← drawResult_flag_second mem screen (s.v rx) (s.v ry) s.address n]
    rcases hb2 : (drawResult mem
        (drawResult mem screen (s.v rx) (s.v ry) s.address n).1
        (s.v rx) (s.v ry) s.address n).2 <;> simp [hb2]

/-- Witness for the amended C5: the digit-0 glyph drawn twice at (0, 0) on a
cleared screen. -/
theorem double_draw_restores_pixels_witness :
    ∃ s₁ scr₁ s₂ scr₂,
      execute (.DrawSprite 0 1 5) State.start glyphMem clearBuf zeroTimer 0 =
        .ok (s₁, glyphMem, scr₁, zeroTimer) ∧
      execute (.DrawSprite 0 1 5) s₁ glyphMem scr₁ zeroTimer 0 =
        .ok (s₂, glyphMem, scr₂, zeroTimer) ∧
      (∀ j, (scr₂ j = 0xffffffff ↔ clearBuf j = 0xffffffff)) ∧
      (s₁.v 15 = 1 ∨ s₁.v 15 = 0) ∧
      (s₁.v 15 = 1 ↔ ∃ r, r < 5 ∧ ∃ b, b < 8 ∧
        clearBuf (drawIdx (State.start.v 0) (State.start.v 1) (r, b)) = 0xffffffff ∧
        spriteBitAt glyphMem State.start.address r b = 1) ∧
      (s₂.v 15 = 1 ↔ ∃ r, r < 5 ∧ ∃ b, b < 8 ∧
        ¬ clearBuf (drawIdx (State.start.v 0) (State.start.v 1) (r, b)) = 0xffffffff ∧
        spriteBitAt glyphMem State.start.address r b = 1) :=
  double_draw_restores_pixels State.start glyphMem clearBuf zeroTimer 0 0 1 5
    (by decide) (by decide) (by decide) (by decide)

/-- C6. BCD store writes the hundreds, tens and ones digits of the source
register's byte value at the index register's address and the two following
bytes, each digit below 10, recomposing to the value, and writes nothing
else. -/
theorem store_bcd_writes_three_digits (s : State) (mem : Memory) (screen : Nat → Nat)
    (timer : Timer) (rnd : Nat) (r : Nat) (h : s.v r < 256) :
    ∃ s' m', execute (.StoreBCD r) s mem screen timer rnd = .ok (s', m', screen, timer) ∧
      m'.mem s.address = s.v r / 100 ∧
      m'.mem (s.address + 1) = s.v r / 10 % 10 ∧
      m'.mem (s.address + 2) = s.v r % 10 ∧
      s.v r / 100 < 10 ∧ s.v r / 10 % 10 < 10 ∧ s.v r % 10 < 10 ∧
      100 * (s.v r / 100) + 10 * (s.v r / 10 % 10) + s.v r % 10 = s.v r ∧
      ∀ j, j ≠ s.address → j ≠ s.address + 1 → j ≠ s.address + 2 →
        m'.mem j = mem.mem j := by
  refine ⟨_, _, rfl, ?_, ?_, ?_, by omega, by omega, by omega, by omega, ?_⟩
  · dsimp only
    rw [Function.update_noteq (by omega), Function.update_noteq (by omega),
      Function.update_same]
    rfl
  · dsimp only
    rw [Function.update_noteq (by omega), Function.update_same]
    simp only [State.get]
    omega
  · dsimp only
    rw [Function.update_same]
    simp only [State.get]
    omega
  · intro j h1 h2 h3
    dsimp only
    rw [Function.update_noteq h3, Function.update_noteq h2, Function.update_noteq h1]

/-- Witness for C6: BCD store of 234 writes the bytes 2, 3, 4. -/
theorem store_bcd_writes_three_digits_witness :
    ((execute (.StoreBCD 0) bcdState Memory.zero clearBuf zeroTimer 0).toOption.map
      (fun r => (r.2.1.mem 0x300, r.2.1.mem 0x301, r.2.1.mem 0x302))) = some (2, 3, 4) := by
  obtain ⟨s', m', heq, h1, h2, h3, -, -, -, -, -⟩ :=
    store_bcd_writes_three_digits bcdState Memory.zero clearBuf zeroTimer 0 0 (by decide)
  rw [heq]
  simp only [Except.toOption, Option.map, Option.some.injEq, Prod.mk.injEq]
  exact ⟨h1, h2, h3⟩

/-- A defined pattern selects an arm of the decode match, and an undefined
pattern reaches its final failure arm carrying the address and nibbles. -/
theorem decodeFields_spec (ipv a b c d : Nat) :
    (definedPattern a b c d → ∃ i, decodeFields ipv a b c d = .ok i) ∧
    (¬ definedPattern a b c d → decodeFields ipv a b c d = .error ⟨ipv, a, b, c, d⟩) := by
  constructor
  · intro hdef
    unfold definedPattern at hdef
    rcases hdef with h | h | h | h | h | h | h | h | h | h | h | h | h | h | h | h
    · subst h
      simp [decodeFields]
      split_ifs <;> exact ⟨_, rfl⟩
    · subst h
      simp [decodeFields]
    · subst h
      simp [decodeFields]
    · subst h
      simp [decodeFields]
    · subst h
      simp [decodeFields]
    · obtain ⟨h1, h2⟩ := h
      subst h1
      subst h2
      simp [decodeFields]
    · subst h
      simp [decodeFields]
    · subst h
      simp [decodeFields]
    · obtain ⟨h1, h2⟩ := h
      subst h1
      rcases h2 with h2 | h2 | h2 | h2 | h2 | h2 | h2 | h2 | h2 <;> subst h2 <;>
        simp [decodeFields]
    · obtain ⟨h1, h2⟩ := h
      subst h1
      subst h2
      simp [decodeFields]
    · subst h
      simp [decodeFields]
    · subst h
      simp [decodeFields]
    · subst h
      simp [decodeFields]
    · subst h
      simp [decodeFields]
    · obtain ⟨h1, h2⟩ := h
      subst h1
      rcases h2 with ⟨h2, h3⟩ | ⟨h2, h3⟩ <;> subst h2 <;> subst h3 <;>
        simp [decodeFields]
    · obtain ⟨h1, h2⟩ := h
      subst h1
      rcases h2 with ⟨h2, h3⟩ | ⟨h2, h3⟩ | ⟨h2, h3⟩ | ⟨h2, h3⟩ | ⟨h2, h3⟩ | ⟨h2, h3⟩ |
        ⟨h2, h3⟩ | ⟨h2, h3⟩ | ⟨h2, h3⟩ <;> subst h2 <;> subst h3 <;>
        simp [decodeFields]
  · intro hndef
    unfold definedPattern at hndef
    push_neg at hndef
    obtain ⟨n0, n1, n2, n3, n4, n5, n6, n7, n8, n9, na, nb, nc, nd, ne, nf⟩ := hndef
    unfold decodeFields
    rw [if_neg (fun h => n0 h.1), if_neg (fun h => n0 h.1), if_neg n0, if_neg n1,
      if_neg n2, if_neg n3, if_neg n4, if_neg (fun h => n5 h.1 h.2), if_neg n6, if_neg n7,
      if_neg (fun h => (n8 h.1).1 h.2),
      if_neg (fun h => (n8 h.1).2.1 h.2),
      if_neg (fun h => (n8 h.1).2.2.1 h.2),
      if_neg (fun h => (n8 h.1).2.2.2.1 h.2),
      if_neg (fun h => (n8 h.1).2.2.2.2.1 h.2),
      if_neg (fun h => (n8 h.1).2.2.2.2.2.1 h.2),
      if_neg (fun h => (n8 h.1).2.2.2.2.2.2.1 h.2),
      if_neg (fun h => (n8 h.1).2.2.2.2.2.2.2.1 h.2),
      if_neg (fun h => (n8 h.1).2.2.2.2.2.2.2.2 h.2),
      if_neg (fun h => n9 h.1 h.2), if_neg na, if_neg nb, if_neg nc, if_neg nd,
      if_neg (fun h => (ne h.1).1 h.2.1 h.2.2),
      if_neg (fun h => (ne h.1).2 h.2.1 h.2.2),
      if_neg (fun h => (nf h.1).1 h.2.1 h.2.2),
      if_neg (fun h => (nf h.1).2.1 h.2.1 h.2.2),
      if_neg (fun h => (nf h.1).2.2.1 h.2.1 h.2.2),
      if_neg (fun h => (nf h.1).2.2.2.1 h.2.1 h.2.2),
      if_neg (fun h => (nf h.1).2.2.2.2.1 h.2.1 h.2.2),
      if_neg (fun h => (nf h.1).2.2.2.2.2.1 h.2.1 h.2.2),
      if_neg (fun h => (nf h.1).2.2.2.2.2.2.1 h.2.1 h.2.2),
      if_neg (fun h => (nf h.1).2.2.2.2.2.2.2.1 h.2.1 h.2.2),
      if_neg (fun h => (nf h.1).2.2.2.2.2.2.2.2 h.2.1 h.2.2)]

/-- C7. Decoding returns an instruction exactly when the four opcode nibbles
match a defined pattern, and otherwise fails with an error that carries the
faulting address and the four raw opcode nibbles. -/
theorem decode_defined_or_error (s : State) (mem : Memory) :
    (definedPattern (nibA s mem) (nibB s mem) (nibC s mem) (nibD s mem) →
      ∃ i, decode s mem = .ok i) ∧
    (¬ definedPattern (nibA s mem) (nibB s mem) (nibC s mem) (nibD s mem) →
      decode s mem = .error ⟨s.ip, nibA s mem, nibB s mem, nibC s mem, nibD s mem⟩) :=
  decodeFields_spec s.ip (nibA s mem) (nibB s mem) (nibC s mem) (nibD s mem)

/-- Witness for C7: the word `0x5001` decodes to an error carrying address
`0x200` and its nibbles, and the word `0x8344` decodes to an instruction. -/
theorem decode_defined_or_error_witness :
    decode State.start badOpMem = .error ⟨0x200, 5, 0, 0, 1⟩ ∧
    ∃ i, decode State.start goodOpMem = .ok i :=
  ⟨(decode_defined_or_error State.start badOpMem).2 (by decide),
   (decode_defined_or_error State.start goodOpMem).1 (by decide)⟩

/-- C8. A timer tick decrements each counter by exactly 1 precisely when at
least 16600 microseconds have elapsed since the previous tick, floors each
counter at 0, returns whether the tick fired, resets the clock base on a
tick, and never increases a counter. -/
theorem timer_update_spec (t : Timer) (now : Nat) :
    ((Timer.update t now).2 = true ↔ 16600 ≤ now - t.last_update) ∧
    ((Timer.update t now).2 = false → (Timer.update t now).1 = t) ∧
    ((Timer.update t now).2 = true →
      (Timer.update t now).1.last_update = now ∧
      (0 < t.delay_value → (Timer.update t now).1.delay_value = t.delay_value - 1) ∧
      (t.delay_value = 0 → (Timer.update t now).1.delay_value = 0) ∧
      (0 < t.sound_value → (Timer.update t now).1.sound_value = t.sound_value - 1) ∧
      (t.sound_value = 0 → (Timer.update t now).1.sound_value = 0)) ∧
    (Timer.update t now).1.delay_value ≤ t.delay_value ∧
    (Timer.update t now).1.sound_value ≤ t.sound_value := by
  by_cases h : 16600 ≤ now - t.last_update
  · refine ⟨by simp [Timer.update, h], ?_, ?_, ?_, ?_⟩
    · intro h2
      exfalso
      simp [Timer.update, h] at h2
    · intro h2
      refine ⟨by simp [Timer.update, h], ?_, ?_, ?_, ?_⟩ <;> intro h3 <;>
        simp [Timer.update, h, h3]
    · simp only [Timer.update, h, if_true]
      split <;> omega
    · simp only [Timer.update, h, if_true]
      split <;> omega
  · refine ⟨by simp [Timer.update, h], ?_, ?_, ?_, ?_⟩
    · intro h2
      simp [Timer.update, h]
    · intro h2
      exfalso
      simp [Timer.update, h] at h2
    · simp [Timer.update, h]
    · simp [Timer.update, h]

/-- Witness for C8: with delay 3, sound 5 and 20000 elapsed microseconds the
tick fires and the delay counter drops to 2. -/
theorem timer_update_spec_witness :
    (Timer.update ⟨3, 5, 0⟩ 20000).2 = true ∧
    (Timer.update ⟨3, 5, 0⟩ 20000).1.delay_value = 2 := by
  have h := timer_update_spec ⟨3, 5, 0⟩ 20000
  have ht : (Timer.update ⟨3, 5, 0⟩ 20000).2 = true := h.1.mpr (by decide)
  refine ⟨ht, ?_⟩
  have h2 := (h.2.2.1 ht).2.1 (by decide)
  simpa using h2

/-- C9. Every system-call instruction reaches the `todo` placeholder: the
process panics with a generic unimplemented message instead of returning a
structured "not supported" diagnostic to the caller. -/
theorem syscall_is_todo_panic (s : State) (mem : Memory) (screen : Nat → Nat)
    (timer : Timer) (rnd : Nat) (a : Nat) :
    execute (.SysCall a) s mem screen timer rnd = .error .notImplemented :=
  rfl

/-- C10. Set-index-to-glyph-address only changes the index register — to
five times the source register's value when that value is at most 15, and
not at all otherwise — and advances the program counter by 2; registers,
stack pointer, halt flag, memory, framebuffer and timers are unchanged. -/
theorem set_address_to_sprite_frame (s : State) (mem : Memory) (screen : Nat → Nat)
    (timer : Timer) (rnd : Nat) (x : Nat) :
    ∃ s', execute (.SetAddressToSprite x) s mem screen timer rnd =
        .ok (s', mem, screen, timer) ∧
      s'.v = s.v ∧ s'.sp = s.sp ∧ s'.finished = s.finished ∧ s'.ip = s.ip + 2 ∧
      s'.address = if s.v x ≤ 15 then 5 * s.v x else s.address :=
  ⟨_, rfl, rfl, rfl, rfl, rfl, rfl⟩

end Chip8
